import Mathlib

set_option maxHeartbeats 1000000

/-!
Shallow embedding of the raylib auction application (src/main.c):
credential store, input boxes, and the per-frame screen state machine.
C strings are modelled as lists of byte values (Nat); bid amounts
(C float, compared and assigned but never otherwise computed with)
are modelled as rationals, with strtof abstracted as a parameter.
-/

namespace Auction

/-- Screens of the application, from the AppScreen enum in main.c. -/
inductive Screen
  | authMenu
  | signIn
  | signUp
  | itemList
  | itemDetails
  | placeBid
deriving DecidableEq

/-- Modulus of 32-bit unsigned arithmetic (unsigned int in main.c). -/
def M32 : Nat := 4294967296

/-- One iteration of the loop body of HashPassword in main.c:
hash = ((hash << 5) + hash) + c, each operation wrapping mod 2^32. -/
def hashStep (h c : Nat) : Nat := ((h * 32 % M32 + h) % M32 + c) % M32

/-- HashPassword from main.c: djb2 over the bytes of the password,
starting from 5381. -/
def HashPassword (p : List Nat) : Nat := p.foldl hashStep 5381

/-- Rolling hash exactly as the spec words it: starts from a fixed seed
constant and folds each byte in as hash = hash*33 + c in 32-bit
unsigned arithmetic. Stated from the spec for comparison with
HashPassword. -/
def specRollingHash (p : List Nat) : Nat :=
  p.foldl (fun h c => (h * 33 + c) % M32) 5381

/-- User record from main.c: username (C string) and hashed password
(unsigned int). -/
structure User where
  username : List Nat
  hashedPassword : Nat
deriving DecidableEq

/-- MAX_USERS from main.c. -/
def MAX_USERS : Nat := 10

/-- UsernameExists from main.c: linear scan for an exact username match. -/
def UsernameExists (us : List User) (u : List Nat) : Bool :=
  us.any (fun r => r.username == u)

/-- AuthenticateUser from main.c: true iff some stored user has exactly
this username and the stored hash equals the hash of the given password. -/
def AuthenticateUser (us : List User) (u p : List Nat) : Bool :=
  us.any (fun r => r.username == u && r.hashedPassword == HashPassword p)

/-- Fueled helper for decimal rendering; the fuel only serves structural
termination and is irrelevant once it exceeds the number. -/
def natDecAux (fuel : Nat) (n : Nat) : List Nat :=
  match fuel with
  | 0 => []
  | f + 1 => if n < 10 then [48 + n] else natDecAux f (n / 10) ++ [48 + n % 10]

/-- Decimal digits (ASCII bytes) of a natural number, most significant
first, as printf %u renders it in SaveUsers. -/
def natDec (n : Nat) : List Nat := natDecAux (n + 1) n

/-- SaveUsers from main.c, modelled as the byte content written to the
users file: one line per user, "username hash\n" with the hash in
unsigned decimal. -/
def SaveUsers : List User → List Nat
  | [] => []
  | r :: rest => r.username ++ 32 :: (natDec r.hashedPassword ++ 10 :: SaveUsers rest)

/-- Whitespace bytes as recognized by fscanf conversions (space, tab,
newline, vertical tab, form feed, carriage return). -/
def isWs (c : Nat) : Bool := c == 32 || (9 ≤ c && c ≤ 13)

/-- ASCII decimal digit test. -/
def isDigit (c : Nat) : Bool := 48 ≤ c && c ≤ 57

/-- Value of a list of ASCII digit bytes read as a decimal number, the
way fscanf %u accumulates it. -/
def parseDec (ds : List Nat) : Nat := ds.foldl (fun a d => a * 10 + (d - 48)) 0

/-- fscanf %s: skip whitespace, then read a maximal nonempty run of
non-whitespace bytes; fails at end of input. -/
def scanTok (s : List Nat) : Option (List Nat × List Nat) :=
  if (s.dropWhile isWs).isEmpty then none
  else some ((s.dropWhile isWs).takeWhile (fun c => !isWs c),
             (s.dropWhile isWs).dropWhile (fun c => !isWs c))

/-- fscanf %u: skip whitespace, then read a maximal nonempty run of
decimal digits; fails if the next byte is not a digit. -/
def scanNat (s : List Nat) : Option (Nat × List Nat) :=
  if ((s.dropWhile isWs).takeWhile isDigit).isEmpty then none
  else some (parseDec ((s.dropWhile isWs).takeWhile isDigit),
             (s.dropWhile isWs).dropWhile isDigit)

/-- Loop of LoadUsers from main.c: while userCount < MAX_USERS and
fscanf("%s %u") matches both fields, append a user. -/
def loadAux : Nat → List Nat → List User
  | 0, _ => []
  | fuel + 1, s =>
    match scanTok s with
    | none => []
    | some (u, s1) =>
      match scanNat s1 with
      | none => []
      | some (h, s2) => ⟨u, h⟩ :: loadAux fuel s2

/-- LoadUsers from main.c, reading back the users file content. -/
def LoadUsers (s : List Nat) : List User := loadAux MAX_USERS s

/-- Result of RegisterUser: the boolean return value, the in-memory user
array afterwards, and the file content written by the SaveUsers call
(none when no write happened or the file could not be opened). -/
structure RegResult where
  ok : Bool
  users : List User
  fileWrite : Option (List Nat)
deriving DecidableEq

/-- RegisterUser from main.c: reject at capacity or on a duplicate
username; otherwise append the new user (the in-memory array is updated
before saving, so it stays updated even when the save fails) and persist
the whole store, returning the save result. canWrite models whether the
users file can be opened for writing. -/
def RegisterUser (us : List User) (u p : List Nat) (canWrite : Bool) : RegResult :=
  if MAX_USERS ≤ us.length then ⟨false, us, none⟩
  else if UsernameExists us u then ⟨false, us, none⟩
  else
    let us2 := us ++ [⟨u, HashPassword p⟩]
    if canWrite then ⟨true, us2, some (SaveUsers us2)⟩ else ⟨false, us2, none⟩

/-- MAX_INPUT_CHARS from main.c. -/
def MAX_INPUT_CHARS : Nat := 20

/-- InputBox from main.c, at byte level: the 21-byte text buffer, the
letter count, and the active (focused) flag. The rectangle, border
color and password-masking flag only affect rendering and are not
modelled. -/
structure InputBox where
  text : List Nat
  letterCount : Nat
  active : Bool
deriving DecidableEq

/-- Freshly initialized input box: empty string literal initializer
zero-fills the whole 21-byte buffer. -/
def initBox : InputBox := ⟨List.replicate 21 0, 0, false⟩

/-- Per-frame keyboard/mouse input relevant to one UpdateInputBox call:
mouse press edge, queue of typed characters (GetCharPressed stream),
and the backspace/enter key press edges. -/
structure Kbd where
  mousePressed : Bool
  chars : List Nat
  backspace : Bool
  enter : Bool

/-- Character-appending loop of UpdateInputBox: each typed key in range
32..125 is stored at index letterCount (no null terminator is written)
while letterCount < MAX_INPUT_CHARS; other keys are ignored. -/
def appendChars : InputBox → List Nat → InputBox
  | b, [] => b
  | b, k :: ks =>
    if 32 ≤ k ∧ k ≤ 125 ∧ b.letterCount < MAX_INPUT_CHARS then
      appendChars ⟨b.text.set b.letterCount k, b.letterCount + 1, b.active⟩ ks
    else appendChars b ks

/-- UpdateInputBox from main.c: a mouse press focuses the box iff the
click is over it; while active, the box drains the typed-character
queue, applies backspace (writing a null terminator), and deactivates
on enter. Returns the updated box and the remaining character queue
(GetCharPressed consumes from a shared per-frame queue). -/
def UpdateInputBox (b : InputBox) (overBox : Bool) (kbd : Kbd) : InputBox × List Nat :=
  let b1 := if kbd.mousePressed then { b with active := overBox } else b
  if b1.active then
    let b2 := appendChars b1 kbd.chars
    let b3 := if kbd.backspace ∧ 0 < b2.letterCount then
        ⟨b2.text.set (b2.letterCount - 1) 0, b2.letterCount - 1, b2.active⟩
      else b2
    let b4 := if kbd.enter then { b3 with active := false } else b3
    (b4, [])
  else (b1, kbd.chars)

/-- Per-box effect of ResetInputBoxes from main.c: deactivate and
strcpy(text, ""), which only writes a null terminator at index 0. -/
def resetBox (b : InputBox) : InputBox := ⟨b.text.set 0 0, 0, false⟩

/-- Bytes of the C string held in an input box text buffer: everything
up to the first null byte (as strlen/strcmp/strcpy read it). -/
def cString (b : InputBox) : List Nat := b.text.takeWhile (fun c => c ≠ 0)

/-- AuctionItem from main.c. Bid amounts are modelled as rationals. -/
structure AuctionItem where
  name : List Nat
  description : List Nat
  currentBid : ℚ
  highestBidder : List Nat
  auctionClosed : Bool
deriving DecidableEq

/-- Out-of-range array reads of the global items array hit
zero-initialized storage: empty strings, bid 0, open auction. -/
instance : Inhabited AuctionItem := ⟨⟨[], [], 0, [], false⟩⟩

/-- Bytes of a string literal from main.c. -/
def str (s : String) : List Nat := s.toList.map Char.toNat

/-- InitAuctionData from main.c: the three seed items, the third with a
closed auction. -/
def initItems : List AuctionItem :=
  [ ⟨str "Antique Vase", str "A beautiful ceramic vase from the Ming Dynasty.",
      1500, str "No Bids Yet", false⟩,
    ⟨str "Rare Comic Book", str "First edition of 'The Amazing Spider-Man #1'.",
      5000, str "Peter P.", false⟩,
    ⟨str "Vintage Guitar", str "1960s electric guitar, well-preserved.",
      2500, str "Mary J.", true⟩ ]

/-- Identity of the message passed to SetUIMessage, one constructor per
call site in main.c (empty = the empty string). -/
inductive UiMsg
  | empty
  | enterCreds
  | choosePrompt
  | welcome (u : List Nat)
  | loginFailed
  | tooShort
  | pwMismatch
  | userTaken
  | regSuccess
  | regFailed
  | loggedOut
  | enterBid
  | needName
  | bidTooLow (amount current : ℚ)
  | bidTooLarge
  | bidPlaced (amount : ℚ) (bidder : List Nat)
deriving DecidableEq

/-- Whole mutable state of the application: the globals of main.c. -/
structure AppState where
  screen : Screen
  items : List AuctionItem
  selectedItemIndex : Int
  users : List User
  loggedInUsername : List Nat
  uiMessage : UiMsg
  uiMessageTimer : ℚ
  bidAmountInput : InputBox
  bidderNameInput : InputBox
  signInUsernameInput : InputBox
  signInPasswordInput : InputBox
  signUpUsernameInput : InputBox
  signUpPasswordInput : InputBox
  signUpConfirmPasswordInput : InputBox

/-- One frame's raw input, with every mouse hit-test against a fixed
rectangle abstracted to a boolean (the rectangles are fixed and
disjoint per screen), the typed-character queue, key edges, the frame
delta time, and whether the users file is writable this frame. -/
structure Frame where
  dt : ℚ
  mousePressed : Bool
  chars : List Nat
  backspace : Bool
  enter : Bool
  canWrite : Bool
  overSignInBtn : Bool
  overSignUpBtn : Bool
  overLoginBtn : Bool
  overSignInBack : Bool
  overRegisterBtn : Bool
  overSignUpBack : Bool
  itemRowHit : Nat → Bool
  overLogoutBtn : Bool
  overDetailsBack : Bool
  overPlaceBidBtn : Bool
  overBidBtn : Bool
  overCancelBtn : Bool
  overBidAmountBox : Bool
  overBidderNameBox : Bool
  overSignInUserBox : Bool
  overSignInPassBox : Bool
  overSignUpUserBox : Bool
  overSignUpPassBox : Bool
  overSignUpConfirmBox : Bool

/-- ResetInputBoxes from main.c: clears and deactivates all seven boxes. -/
def ResetInputBoxes (s : AppState) : AppState :=
  { s with
    bidAmountInput := resetBox s.bidAmountInput,
    bidderNameInput := resetBox s.bidderNameInput,
    signInUsernameInput := resetBox s.signInUsernameInput,
    signInPasswordInput := resetBox s.signInPasswordInput,
    signUpUsernameInput := resetBox s.signUpUsernameInput,
    signUpPasswordInput := resetBox s.signUpPasswordInput,
    signUpConfirmPasswordInput := resetBox s.signUpConfirmPasswordInput }

/-- Item read items[i] against the global array (out-of-range indices
reach zero-initialized storage, matching the Inhabited default). -/
def itemAt (items : List AuctionItem) (i : Int) : AuctionItem :=
  items.getD i.toNat default

/-- SetUIMessage from main.c: store the message and restart the 3-second
display timer. -/
def setMsg (s : AppState) (m : UiMsg) : AppState :=
  { s with uiMessage := m, uiMessageTimer := 3 }

/-- Rational subtraction written through mkRat so that it evaluates by
kernel reduction; proved equal to subtraction in qsub_eq_sub below. -/
def qsub (a b : ℚ) : ℚ := mkRat (a.num * b.den - b.num * a.den) (a.den * b.den)

/-- Frame-top message timer update from main.c: while positive, count
the timer down by the frame delta and clear the message when it
crosses zero. -/
def stepMsgTimer (s : AppState) (dt : ℚ) : AppState :=
  if 0 < s.uiMessageTimer then
    let t := qsub s.uiMessageTimer dt
    if t ≤ 0 then { s with uiMessageTimer := t, uiMessage := UiMsg.empty }
    else { s with uiMessageTimer := t }
  else s

/-- SCREEN_AUTH_MENU update case of main.c. -/
def stepAuthMenu (s : AppState) (f : Frame) : AppState :=
  let s1 := if f.overSignInBtn ∧ f.mousePressed then
      setMsg (ResetInputBoxes { s with screen := Screen.signIn }) UiMsg.enterCreds
    else s
  if f.overSignUpBtn ∧ f.mousePressed then
    setMsg (ResetInputBoxes { s1 with screen := Screen.signUp }) UiMsg.choosePrompt
  else s1

/-- SCREEN_SIGN_IN update case of main.c. -/
def stepSignIn (s : AppState) (f : Frame) : AppState :=
  let r1 := UpdateInputBox s.signInUsernameInput f.overSignInUserBox
    ⟨f.mousePressed, f.chars, f.backspace, f.enter⟩
  let r2 := UpdateInputBox s.signInPasswordInput f.overSignInPassBox
    ⟨f.mousePressed, r1.2, f.backspace, f.enter⟩
  let s0 := { s with signInUsernameInput := r1.1, signInPasswordInput := r2.1 }
  let s1 := if f.overLoginBtn ∧ f.mousePressed then
      if AuthenticateUser s0.users (cString s0.signInUsernameInput)
          (cString s0.signInPasswordInput) then
        ResetInputBoxes (setMsg
          { s0 with loggedInUsername := cString s0.signInUsernameInput,
                    screen := Screen.itemList }
          (UiMsg.welcome (cString s0.signInUsernameInput)))
      else setMsg s0 UiMsg.loginFailed
    else s0
  if f.overSignInBack ∧ f.mousePressed then
    setMsg (ResetInputBoxes { s1 with screen := Screen.authMenu }) UiMsg.empty
  else s1

/-- SCREEN_SIGN_UP update case of main.c. -/
def stepSignUp (s : AppState) (f : Frame) : AppState :=
  let r1 := UpdateInputBox s.signUpUsernameInput f.overSignUpUserBox
    ⟨f.mousePressed, f.chars, f.backspace, f.enter⟩
  let r2 := UpdateInputBox s.signUpPasswordInput f.overSignUpPassBox
    ⟨f.mousePressed, r1.2, f.backspace, f.enter⟩
  let r3 := UpdateInputBox s.signUpConfirmPasswordInput f.overSignUpConfirmBox
    ⟨f.mousePressed, r2.2, f.backspace, f.enter⟩
  let s0 := { s with signUpUsernameInput := r1.1, signUpPasswordInput := r2.1,
                     signUpConfirmPasswordInput := r3.1 }
  let s1 := if f.overRegisterBtn ∧ f.mousePressed then
      let u := cString s0.signUpUsernameInput
      let p := cString s0.signUpPasswordInput
      let c := cString s0.signUpConfirmPasswordInput
      if u.length < 3 ∨ p.length < 5 then setMsg s0 UiMsg.tooShort
      else if p ≠ c then setMsg s0 UiMsg.pwMismatch
      else if UsernameExists s0.users u then setMsg s0 UiMsg.userTaken
      else
        let r := RegisterUser s0.users u p f.canWrite
        if r.ok then
          ResetInputBoxes (setMsg { s0 with users := r.users, screen := Screen.signIn }
            UiMsg.regSuccess)
        else setMsg { s0 with users := r.users } UiMsg.regFailed
    else s0
  if f.overSignUpBack ∧ f.mousePressed then
    setMsg (ResetInputBoxes { s1 with screen := Screen.authMenu }) UiMsg.empty
  else s1

/-- SCREEN_ITEM_LIST update case of main.c: on a mouse press, scan the
item rows in order and select the first one hit; then the logout
button. -/
def stepItemList (s : AppState) (f : Frame) : AppState :=
  let s1 := if f.mousePressed then
      match (List.range s.items.length).find? (fun i => f.itemRowHit i) with
      | some i => setMsg { s with selectedItemIndex := Int.ofNat i,
                                  screen := Screen.itemDetails } UiMsg.empty
      | none => s
    else s
  if f.overLogoutBtn ∧ f.mousePressed then
    setMsg { s1 with loggedInUsername := [], screen := Screen.authMenu } UiMsg.loggedOut
  else s1

/-- SCREEN_ITEM_DETAILS update case of main.c: back button first, then
the place-bid button, which is only live when an item is selected and
its auction is not closed. -/
def stepItemDetails (s : AppState) (f : Frame) : AppState :=
  let s1 := if f.overDetailsBack ∧ f.mousePressed then
      setMsg { s with screen := Screen.itemList, selectedItemIndex := -1 } UiMsg.empty
    else s
  if s1.selectedItemIndex ≠ -1 ∧
      ¬(itemAt s1.items s1.selectedItemIndex).auctionClosed then
    if f.overPlaceBidBtn ∧ f.mousePressed then
      setMsg (ResetInputBoxes { s1 with screen := Screen.placeBid }) UiMsg.enterBid
    else s1
  else s1

/-- SCREEN_PLACE_BID update case of main.c: update the two input boxes,
then the BID! button (validating bidder name, lower bound, upper
bound, in that order), then the cancel button. strtof is passed in as
the semantics of C float parsing on the bid-amount text. -/
def stepPlaceBid (strtof : List Nat → ℚ) (s : AppState) (f : Frame) : AppState :=
  let r1 := UpdateInputBox s.bidAmountInput f.overBidAmountBox
    ⟨f.mousePressed, f.chars, f.backspace, f.enter⟩
  let r2 := UpdateInputBox s.bidderNameInput f.overBidderNameBox
    ⟨f.mousePressed, r1.2, f.backspace, f.enter⟩
  let s0 := { s with bidAmountInput := r1.1, bidderNameInput := r2.1 }
  let s1 := if f.overBidBtn ∧ f.mousePressed then
      let newBid := strtof (cString s0.bidAmountInput)
      let name := cString s0.bidderNameInput
      if name.length = 0 then setMsg s0 UiMsg.needName
      else if newBid ≤ (itemAt s0.items s0.selectedItemIndex).currentBid then
        setMsg s0 (UiMsg.bidTooLow newBid
          (itemAt s0.items s0.selectedItemIndex).currentBid)
      else if 999999999 < newBid then setMsg s0 UiMsg.bidTooLarge
      else
        setMsg { s0 with
          items := s0.items.set s0.selectedItemIndex.toNat
            { itemAt s0.items s0.selectedItemIndex with
              currentBid := newBid, highestBidder := name },
          screen := Screen.itemDetails } (UiMsg.bidPlaced newBid name)
    else s0
  if f.overCancelBtn ∧ f.mousePressed then
    setMsg { s1 with screen := Screen.itemDetails } UiMsg.empty
  else s1

/-- One iteration of the main while loop of main.c: message timer update
followed by the screen state machine dispatch (drawing has no effect
on state). -/
def step (strtof : List Nat → ℚ) (s : AppState) (f : Frame) : AppState :=
  match (stepMsgTimer s f.dt).screen with
  | Screen.authMenu => stepAuthMenu (stepMsgTimer s f.dt) f
  | Screen.signIn => stepSignIn (stepMsgTimer s f.dt) f
  | Screen.signUp => stepSignUp (stepMsgTimer s f.dt) f
  | Screen.itemList => stepItemList (stepMsgTimer s f.dt) f
  | Screen.itemDetails => stepItemDetails (stepMsgTimer s f.dt) f
  | Screen.placeBid => stepPlaceBid strtof (stepMsgTimer s f.dt) f

/-- State right after the initialization section of main: auth menu,
seed items, no selection, the users loaded from the users file (passed
in as a parameter), empty session and message, fresh input boxes. -/
def initState (us : List User) : AppState :=
  { screen := Screen.authMenu,
    items := initItems,
    selectedItemIndex := -1,
    users := us,
    loggedInUsername := [],
    uiMessage := UiMsg.empty,
    uiMessageTimer := 0,
    bidAmountInput := initBox,
    bidderNameInput := initBox,
    signInUsernameInput := initBox,
    signInPasswordInput := initBox,
    signUpUsernameInput := initBox,
    signUpPasswordInput := initBox,
    signUpConfirmPasswordInput := initBox }

/-- States reachable from startup by any sequence of frames. -/
inductive Reachable (strtof : List Nat → ℚ) : AppState → Prop
  | init (us : List User) : Reachable strtof (initState us)
  | next (s : AppState) (f : Frame) : Reachable strtof s → Reachable strtof (step strtof s f)

/-- Trace of states along a stream of frames, starting from startup. -/
def runApp (strtof : List Nat → ℚ) (us : List User) (fs : Nat → Frame) : Nat → AppState
  | 0 => initState us
  | n + 1 => step strtof (runApp strtof us fs n) (fs n)

/-- Current bid of item j of a state (0 for out-of-range j, matching
zero-initialized storage). -/
def bidAt (s : AppState) (j : Nat) : ℚ := (s.items.getD j default).currentBid

/-! Reachability invariant for the selected-item index. -/
/-- Invariant carried by every reachable state: the item count stays 3,
and on the ItemDetails and PlaceBid screens the selected index is a
valid item index. -/
def Inv (s : AppState) : Prop :=
  s.items.length = 3 ∧
  ((s.screen = Screen.itemDetails ∨ s.screen = Screen.placeBid) →
    0 ≤ s.selectedItemIndex ∧ s.selectedItemIndex < 3)

/-- An idle frame for concrete runs: no clicks, no keys, zero delta
time, writable users file. -/
def frameW : Frame :=
  { dt := 0, mousePressed := false, chars := [], backspace := false, enter := false,
    canWrite := true, overSignInBtn := false, overSignUpBtn := false,
    overLoginBtn := false, overSignInBack := false, overRegisterBtn := false,
    overSignUpBack := false, itemRowHit := fun _ => false, overLogoutBtn := false,
    overDetailsBack := false, overPlaceBidBtn := false, overBidBtn := false,
    overCancelBtn := false, overBidAmountBox := false, overBidderNameBox := false,
    overSignInUserBox := false, overSignInPassBox := false,
    overSignUpUserBox := false, overSignUpPassBox := false,
    overSignUpConfirmBox := false }

/-! Concrete witness scenarios for the state-machine theorems. -/
/-- A strtof stand-in that parses nothing (the value is irrelevant to
the statements that use it). -/
def strtof0 : List Nat → ℚ := fun _ => 0

/-- Input box holding the given C string. -/
def boxW (l : List Nat) : InputBox :=
  ⟨l ++ List.replicate (21 - l.length) 0, l.length, false⟩

/-- Place-bid screen state with amount "1600" and bidder "Bob" typed in,
item 0 (current bid 1500) selected. -/
def c1S : AppState :=
  { initState [] with
    screen := Screen.placeBid,
    selectedItemIndex := 0,
    bidAmountInput := boxW [49, 54, 48, 48],
    bidderNameInput := boxW [66, 111, 98] }

/-- Frame clicking the BID! button. -/
def c1F : Frame := { frameW with mousePressed := true, overBidBtn := true }

/-- Sign-up screen state with empty input fields. -/
def c7S : AppState := { initState [] with screen := Screen.signUp }

/-- Frame clicking the Register button. -/
def c7F : Frame := { frameW with mousePressed := true, overRegisterBtn := true }

/-- Item-details screen state showing the pre-seeded closed item
(Vintage Guitar, index 2). -/
def c8S : AppState :=
  { initState [] with screen := Screen.itemDetails, selectedItemIndex := 2 }

/-- Users file content loaded at startup for the C9 witness run: user
"alice" with the hash of "password1". -/
def usersW : List User :=
  [⟨[97, 108, 105, 99, 101], HashPassword [112, 97, 115, 115, 119, 111, 114, 100, 49]⟩]

/-- Frame clicking the Sign In menu button. -/
def c9F1 : Frame := { frameW with mousePressed := true, overSignInBtn := true }

/-- Frame clicking the username field and typing "alice". -/
def c9F2 : Frame :=
  { frameW with
    mousePressed := true,
    overSignInUserBox := true,
    chars := [97, 108, 105, 99, 101] }

/-- Frame clicking the password field and typing "password1". -/
def c9F3 : Frame :=
  { frameW with
    mousePressed := true,
    overSignInPassBox := true,
    chars := [112, 97, 115, 115, 119, 111, 114, 100, 49] }

/-- Frame clicking the Login button. -/
def c9F4 : Frame := { frameW with mousePressed := true, overLoginBtn := true }

/-- Frame clicking the first item row. -/
def c9F5 : Frame :=
  { frameW with
    mousePressed := true,
    itemRowHit := fun i => i == 0 }

/-- Frame clicking the Place Bid button. -/
def c9F6 : Frame := { frameW with mousePressed := true, overPlaceBidBtn := true }

/-- A state on the PlaceBid screen reached by six frames from startup:
sign-in menu, type username, type password, login, select item 0,
place bid. -/
def c9S : AppState :=
  step strtof0 (step strtof0 (step strtof0 (step strtof0 (step strtof0 (step strtof0
    (initState usersW) c9F1) c9F2) c9F3) c9F4) c9F5) c9F6

/-- Fuel irrelevance for decimal rendering. -/
lemma natDecAux_congr : ∀ (f1 f2 n : Nat), n < f1 → n < f2 →
    natDecAux f1 n = natDecAux f2 n := by
  intro f1
  induction f1 with
  | zero => intro f2 n h1 _; omega
  | succ g ih =>
    intro f2 n h1 h2
    cases f2 with
    | zero => omega
    | succ h =>
      simp only [natDecAux]
      split_ifs with hn
      · rfl
      · rw [ih h (n / 10) (by omega) (by omega)]

/-- Recurrence satisfied by the decimal rendering. -/
lemma natDec_eq (n : Nat) : natDec n =
    if n < 10 then [48 + n] else natDec (n / 10) ++ [48 + n % 10] := by
  show natDecAux (n + 1) n = _
  simp only [natDecAux]
  split_ifs with hn
  · rfl
  · rw [natDecAux_congr n (n / 10 + 1) (n / 10) (by omega) (by omega)]
    rfl

/-- qsub is subtraction of rationals. -/
lemma qsub_eq_sub (a b : ℚ) : qsub a b = a - b := by
  unfold qsub
  rw [Rat.sub_def, Rat.normalize_eq_mkRat]

/-! Theorems about the credential store. -/
/-- One loop iteration of HashPassword computes hash*33 + c mod 2^32. -/
lemma hashStep_eq (h c : Nat) : hashStep h c = (h * 33 + c) % M32 := by
  unfold hashStep M32
  omega

/-- HashPassword agrees with the spec's rolling hash from any seed. -/
lemma foldl_hashStep_eq (p : List Nat) : ∀ a : Nat,
    p.foldl hashStep a = p.foldl (fun h c => (h * 33 + c) % M32) a := by
  induction p with
  | nil => intro a; rfl
  | cons c t ih => intro a; simp only [List.foldl_cons, hashStep_eq, ih]

/-- Claim C5: HashPassword is deterministic (equal inputs give equal
outputs) and equals the rolling hash that starts from the fixed seed
constant and folds each byte in as hash = hash*33 + c in 32-bit
unsigned arithmetic. -/
theorem c5_hash_deterministic_rolling (p q : List Nat) (h : p = q) :
    HashPassword p = HashPassword q ∧ HashPassword p = specRollingHash p := by
  subst h
  exact ⟨rfl, foldl_hashStep_eq p 5381⟩

/-- Witness for C5 at a concrete password. -/
theorem c5_hash_deterministic_rolling_witness :
    HashPassword [97, 98, 99] = HashPassword [97, 98, 99] ∧
    HashPassword [97, 98, 99] = specRollingHash [97, 98, 99] :=
  c5_hash_deterministic_rolling [97, 98, 99] [97, 98, 99] rfl

/-- Claim C3: registering a fresh username in a store below capacity and
then authenticating with the same credentials succeeds, whether or not
the save to disk succeeded. -/
theorem c3_register_then_authenticate (us : List User) (u p : List Nat) (w : Bool)
    (hcap : us.length < MAX_USERS) (hnew : UsernameExists us u = false) :
    AuthenticateUser (RegisterUser us u p w).users u p = true := by
  have h1 : ¬ MAX_USERS ≤ us.length := by omega
  unfold RegisterUser
  rw [if_neg h1, if_neg (by simp [hnew])]
  cases w <;>
    simp [AuthenticateUser, List.any_append]

/-- Witness for C3: register then authenticate on a concrete store. -/
theorem c3_register_then_authenticate_witness :
    AuthenticateUser (RegisterUser [] [97, 98, 99] [112, 113, 114, 115, 116] false).users
      [97, 98, 99] [112, 113, 114, 115, 116] = true :=
  c3_register_then_authenticate [] [97, 98, 99] [112, 113, 114, 115, 116] false
    (by decide) (by decide)

/-- Claim C6: RegisterUser fails leaving the store unchanged at capacity
or on a duplicate username; otherwise it appends exactly one user with
the hash of the password and persists the whole new store, returning
failure iff the file cannot be written. -/
theorem c6_register_user_contract (us : List User) (u p : List Nat) (w : Bool) :
    (MAX_USERS ≤ us.length → RegisterUser us u p w = ⟨false, us, none⟩) ∧
    (us.length < MAX_USERS → UsernameExists us u = true →
      RegisterUser us u p w = ⟨false, us, none⟩) ∧
    (us.length < MAX_USERS → UsernameExists us u = false →
      (RegisterUser us u p w).users = us ++ [⟨u, HashPassword p⟩] ∧
      (RegisterUser us u p w).ok = w ∧
      (RegisterUser us u p w).fileWrite =
        (if w then some (SaveUsers (us ++ [⟨u, HashPassword p⟩])) else none)) := by
  refine ⟨?_, ?_, ?_⟩
  · intro hcap
    unfold RegisterUser
    rw [if_pos hcap]
  · intro hcap hdup
    unfold RegisterUser
    rw [if_neg (by omega), if_pos hdup]
  · intro hcap hnew
    unfold RegisterUser
    rw [if_neg (by omega), if_neg (by simp [hnew])]
    cases w <;> simp

/-- Witness for C6: the append-and-persist branch at a concrete input. -/
theorem c6_register_user_contract_witness :
    (RegisterUser [] [97] [98, 99, 100, 101, 102] true).users =
      [⟨[97], HashPassword [98, 99, 100, 101, 102]⟩] ∧
    (RegisterUser [] [97] [98, 99, 100, 101, 102] true).ok = true :=
  let h := (c6_register_user_contract [] [97] [98, 99, 100, 101, 102] true).2.2
    (by decide) (by decide)
  ⟨h.1, h.2.1⟩

/-! Round trip of SaveUsers and LoadUsers. -/
/-- Decimal rendering is never empty. -/
lemma natDec_ne_nil (n : Nat) : natDec n ≠ [] := by
  rw [natDec_eq]
  split_ifs <;> simp

/-- Every byte of a decimal rendering is an ASCII digit. -/
lemma natDec_digit (n : Nat) : ∀ d ∈ natDec n, 48 ≤ d ∧ d ≤ 57 := by
  induction n using Nat.strong_induction_on with
  | _ n ih =>
    rw [natDec_eq]
    split_ifs with h
    · intro d hd
      simp only [List.mem_singleton] at hd
      omega
    · intro d hd
      rw [List.mem_append] at hd
      rcases hd with hd | hd
      · exact ih (n / 10) (Nat.div_lt_self (by omega) (by omega)) d hd
      · simp only [List.mem_singleton] at hd
        omega

/-- Folding the %u accumulator over a decimal rendering from any
accumulator value. -/
lemma parseDec_natDec_aux (n : Nat) : ∀ acc : Nat,
    (natDec n).foldl (fun a d => a * 10 + (d - 48)) acc =
      acc * 10 ^ (natDec n).length + n := by
  induction n using Nat.strong_induction_on with
  | _ n ih =>
    intro acc
    rw [natDec_eq]
    split_ifs with h
    · simp only [List.foldl_cons, List.foldl_nil, List.length_singleton, pow_one]
      omega
    · rw [List.foldl_append,
        ih (n / 10) (Nat.div_lt_self (by omega) (by omega)) acc]
      simp only [List.foldl_cons, List.foldl_nil, List.length_append,
        List.length_singleton, pow_succ]
      rw [← mul_assoc]
      generalize acc * 10 ^ (natDec (n / 10)).length = m
      omega

/-- fscanf %u reads back exactly what printf %u wrote. -/
lemma parseDec_natDec (n : Nat) : parseDec (natDec n) = n := by
  have h := parseDec_natDec_aux n 0
  simpa [parseDec] using h

/-- Dropping while a predicate holds jumps over a prefix on which it
holds everywhere. -/
lemma dropWhile_append_all {p : Nat → Bool} (l1 l2 : List Nat)
    (h : ∀ c ∈ l1, p c = true) : (l1 ++ l2).dropWhile p = l2.dropWhile p := by
  induction l1 with
  | nil => rfl
  | cons a t ih =>
    rw [List.cons_append, List.dropWhile_cons_of_pos (h a (by simp))]
    exact ih (fun c hc => h c (by simp [hc]))

/-- Taking while a predicate holds keeps a prefix on which it holds
everywhere. -/
lemma takeWhile_append_all {p : Nat → Bool} (l1 l2 : List Nat)
    (h : ∀ c ∈ l1, p c = true) : (l1 ++ l2).takeWhile p = l1 ++ l2.takeWhile p := by
  induction l1 with
  | nil => rfl
  | cons a t ih =>
    rw [List.cons_append, List.takeWhile_cons_of_pos (h a (by simp)),
      ih (fun c hc => h c (by simp [hc])), List.cons_append]

/-- A list on which a predicate holds everywhere drops to nothing. -/
lemma dropWhile_all {p : Nat → Bool} (l : List Nat)
    (h : ∀ c ∈ l, p c = true) : l.dropWhile p = [] := by
  have h2 := dropWhile_append_all l [] h
  simpa using h2

/-- fscanf %s on whitespace followed by a whitespace-free nonempty token
followed by a space yields exactly the token. -/
lemma scanTok_serialized (pre uname X : List Nat)
    (hpre : ∀ c ∈ pre, isWs c = true) (hne : uname ≠ [])
    (hnws : ∀ c ∈ uname, isWs c = false) :
    scanTok (pre ++ (uname ++ 32 :: X)) = some (uname, 32 :: X) := by
  obtain ⟨a, t, rfl⟩ : ∃ a t, uname = a :: t := by
    cases uname with
    | nil => exact absurd rfl hne
    | cons a t => exact ⟨a, t, rfl⟩
  have hAll : (pre ++ ((a :: t) ++ 32 :: X)).dropWhile isWs = (a :: t) ++ 32 :: X := by
    rw [dropWhile_append_all pre _ hpre, List.cons_append,
      List.dropWhile_cons_of_neg (by simp [hnws a (by simp)]), ← List.cons_append]
  have htake : ((a :: t) ++ 32 :: X).takeWhile (fun c => !isWs c) = a :: t := by
    rw [takeWhile_append_all _ _ (fun c hc => by simp [hnws c hc]),
      List.takeWhile_cons_of_neg (by decide), List.append_nil]
  have hdrop2 : ((a :: t) ++ 32 :: X).dropWhile (fun c => !isWs c) = 32 :: X := by
    rw [dropWhile_append_all _ _ (fun c hc => by simp [hnws c hc]),
      List.dropWhile_cons_of_neg (by decide)]
  simp only [scanTok, hAll, htake, hdrop2]
  rw [if_neg (by simp)]

/-- fscanf %u on a space, a decimal rendering and a newline yields the
rendered number and stops at the newline. -/
lemma scanNat_digits (n : Nat) (S : List Nat) :
    scanNat (32 :: (natDec n ++ 10 :: S)) = some (n, 10 :: S) := by
  obtain ⟨d, ds, hnd⟩ : ∃ d ds, natDec n = d :: ds := by
    cases h : natDec n with
    | nil => exact absurd h (natDec_ne_nil n)
    | cons d ds => exact ⟨d, ds, rfl⟩
  have hd48 : 48 ≤ d ∧ d ≤ 57 := natDec_digit n d (by rw [hnd]; simp)
  have hdropWs : (32 :: (natDec n ++ 10 :: S)).dropWhile isWs = natDec n ++ 10 :: S := by
    rw [List.dropWhile_cons_of_pos (by decide), hnd, List.cons_append,
      List.dropWhile_cons_of_neg (by simp [isWs]; omega), ← List.cons_append, ← hnd]
  have htake : (natDec n ++ 10 :: S).takeWhile isDigit = natDec n := by
    rw [takeWhile_append_all _ _ (fun c hc => by
        have hc2 := natDec_digit n c hc; simp [isDigit]; omega),
      List.takeWhile_cons_of_neg (by decide), List.append_nil]
  have hdropD : (natDec n ++ 10 :: S).dropWhile isDigit = 10 :: S := by
    rw [dropWhile_append_all _ _ (fun c hc => by
        have hc2 := natDec_digit n c hc; simp [isDigit]; omega),
      List.dropWhile_cons_of_neg (by decide)]
  simp only [scanNat, hdropWs, htake, hdropD]
  rw [if_neg (by rw [hnd]; simp), parseDec_natDec]

/-- LoadUsers parses back exactly what SaveUsers wrote, allowing any
leading whitespace, provided every username is nonempty and
whitespace-free and the list fits in the store. -/
lemma loadAux_save (us : List User) : ∀ (fuel : Nat) (pre : List Nat),
    us.length ≤ fuel →
    (∀ c ∈ pre, isWs c = true) →
    (∀ r ∈ us, r.username ≠ [] ∧ ∀ c ∈ r.username, isWs c = false) →
    loadAux fuel (pre ++ SaveUsers us) = us := by
  induction us with
  | nil =>
    intro fuel pre _ hpre _
    cases fuel with
    | zero => rfl
    | succ f =>
      show loadAux (f + 1) (pre ++ SaveUsers []) = []
      have hTok : scanTok (pre ++ SaveUsers []) = none := by
        simp only [SaveUsers, List.append_nil, scanTok]
        rw [if_pos (by rw [dropWhile_all pre hpre]; rfl)]
      simp only [loadAux, hTok]
  | cons r rest ih =>
    intro fuel pre hlen hpre hgood
    obtain ⟨hne, hnws⟩ := hgood r (by simp)
    cases fuel with
    | zero => simp at hlen
    | succ f =>
      have hTok : scanTok (pre ++ SaveUsers (r :: rest)) =
          some (r.username, 32 :: (natDec r.hashedPassword ++ 10 :: SaveUsers rest)) :=
        scanTok_serialized pre r.username _ hpre hne hnws
      have hNat : scanNat (32 :: (natDec r.hashedPassword ++ 10 :: SaveUsers rest)) =
          some (r.hashedPassword, 10 :: SaveUsers rest) :=
        scanNat_digits r.hashedPassword (SaveUsers rest)
      have hrest : loadAux f ([10] ++ SaveUsers rest) = rest := by
        refine ih f [10] (by simp at hlen; omega) ?_ ?_
        · intro c hc
          simp only [List.mem_singleton] at hc
          subst hc
          rfl
        · intro q hq
          exact hgood q (by simp [hq])
      simp only [loadAux, hTok, hNat]
      rw [show (10 : Nat) :: SaveUsers rest = [10] ++ SaveUsers rest from rfl, hrest]

/-- Claim C4 as stated is false: SaveUsers followed by LoadUsers loses
every user once a username contains a space, even though that username
is nonempty and within the length bound. With the store
[("a b", 0)] the saved file "a b 0\n" parses "a" as the username and
then fails on "b" at the %u conversion, so nothing is loaded. -/
theorem c4_counterexample :
    (([97, 32, 98] : List Nat) ≠ [] ∧ ([97, 32, 98] : List Nat).length ≤ 31) ∧
    SaveUsers [⟨[97, 32, 98], 0⟩] = [97, 32, 98, 32, 48, 10] ∧
    LoadUsers (SaveUsers [⟨[97, 32, 98], 0⟩]) = [] := by
  exact ⟨⟨by decide, by decide⟩, by decide, by decide⟩

/-- Claim C4 (amended): for every in-memory user list of at most
MAX_USERS users whose usernames are nonempty and contain no whitespace
byte, SaveUsers followed by LoadUsers reproduces exactly the same list
of (username, hash) pairs. -/
theorem c4_save_load_roundtrip (us : List User)
    (hlen : us.length ≤ MAX_USERS)
    (hgood : ∀ r ∈ us, r.username ≠ [] ∧ ∀ c ∈ r.username, isWs c = false) :
    LoadUsers (SaveUsers us) = us := by
  have h := loadAux_save us MAX_USERS [] hlen (by simp) hgood
  simpa [LoadUsers] using h

/-- Witness for the amended C4 on a concrete two-user store. -/
theorem c4_save_load_roundtrip_witness :
    LoadUsers (SaveUsers [⟨[97, 98, 99], 12345⟩, ⟨[120], 4294967295⟩]) =
      [⟨[97, 98, 99], 12345⟩, ⟨[120], 4294967295⟩] :=
  c4_save_load_roundtrip [⟨[97, 98, 99], 12345⟩, ⟨[120], 4294967295⟩]
    (by decide) (by decide)

/-! Input box behavior. -/
/-- Claim C10 fails on the code: the character-append path of
UpdateInputBox never writes a null terminator, so after typing "ab"
into a fresh box, resetting it (which only zeroes text[0]), and typing
"x", the box has letterCount = 1 but text[1] is the stale byte 'b',
not the null terminator the rest of the program relies on; the C
string read from the buffer is "xb". -/
theorem c10_stale_byte_after_reset :
    (let b1 := (UpdateInputBox initBox true ⟨true, [97, 98], false, false⟩).1
     let b2 := resetBox b1
     let b3 := (UpdateInputBox b2 true ⟨true, [120], false, false⟩).1
     b3.letterCount = 1 ∧ b3.text.getD b3.letterCount 0 = 98 ∧
       cString b3 = [120, 98]) := by
  decide

/-! Helper lemmas about the frame step. -/
/-- The message-timer update touches only the message and its timer. -/
lemma stepMsgTimer_fields (s : AppState) (dt : ℚ) :
    (stepMsgTimer s dt).screen = s.screen ∧
    (stepMsgTimer s dt).items = s.items ∧
    (stepMsgTimer s dt).selectedItemIndex = s.selectedItemIndex ∧
    (stepMsgTimer s dt).users = s.users ∧
    (stepMsgTimer s dt).bidAmountInput = s.bidAmountInput ∧
    (stepMsgTimer s dt).bidderNameInput = s.bidderNameInput ∧
    (stepMsgTimer s dt).signUpUsernameInput = s.signUpUsernameInput ∧
    (stepMsgTimer s dt).signUpPasswordInput = s.signUpPasswordInput ∧
    (stepMsgTimer s dt).signUpConfirmPasswordInput = s.signUpConfirmPasswordInput := by
  by_cases h1 : 0 < s.uiMessageTimer
  · by_cases h2 : qsub s.uiMessageTimer dt ≤ 0 <;> simp [stepMsgTimer, h1, h2]
  · simp [stepMsgTimer, h1]

/-- With no typed characters and no backspace, an UpdateInputBox call
leaves the text buffer (hence the C string) unchanged. -/
lemma updateInputBox_text_no_keys (b : InputBox) (o m e : Bool) :
    ((UpdateInputBox b o ⟨m, [], false, e⟩).1).text = b.text := by
  unfold UpdateInputBox
  split_ifs <;> simp [appendChars, apply_ite]

/-- The leftover character queue of an UpdateInputBox call on an empty
queue is empty. -/
lemma updateInputBox_queue_no_keys (b : InputBox) (o m bs e : Bool) :
    (UpdateInputBox b o ⟨m, [], bs, e⟩).2 = [] := by
  unfold UpdateInputBox
  split_ifs <;> simp [apply_ite]

/-- The C string of a box depends only on its text buffer. -/
lemma cString_congr {b b' : InputBox} (h : b'.text = b.text) :
    cString b' = cString b := by
  unfold cString
  rw [h]

/-- Dispatch of the frame step on the sign-up screen. -/
lemma step_eq_signUp (strtof : List Nat → ℚ) (s : AppState) (f : Frame)
    (h : s.screen = Screen.signUp) :
    step strtof s f = stepSignUp (stepMsgTimer s f.dt) f := by
  unfold step
  rw [(stepMsgTimer_fields s f.dt).1, h]

/-- Dispatch of the frame step on the item-details screen. -/
lemma step_eq_itemDetails (strtof : List Nat → ℚ) (s : AppState) (f : Frame)
    (h : s.screen = Screen.itemDetails) :
    step strtof s f = stepItemDetails (stepMsgTimer s f.dt) f := by
  unfold step
  rw [(stepMsgTimer_fields s f.dt).1, h]

/-- Dispatch of the frame step on the place-bid screen. -/
lemma step_eq_placeBid (strtof : List Nat → ℚ) (s : AppState) (f : Frame)
    (h : s.screen = Screen.placeBid) :
    step strtof s f = stepPlaceBid strtof (stepMsgTimer s f.dt) f := by
  unfold step
  rw [(stepMsgTimer_fields s f.dt).1, h]

/-- C string after an UpdateInputBox call with no typed characters and
no backspace. -/
lemma cString_updateInputBox_no_keys (b : InputBox) (o m e : Bool) :
    cString ((UpdateInputBox b o ⟨m, [], false, e⟩).1) = cString b :=
  cString_congr (updateInputBox_text_no_keys b o m e)

/-- Claim C7: on the SignUp screen, clicking Register with a username
shorter than 3 characters or a password shorter than 5 characters (the
contents of the input fields as C strings) shows the validation
message, registers nobody, and leaves the active screen on SignUp. -/
theorem c7_signup_validation (strtof : List Nat → ℚ) (s : AppState) (f : Frame)
    (hscr : s.screen = Screen.signUp)
    (hbtn : f.overRegisterBtn = true) (hmp : f.mousePressed = true)
    (hnb : f.overSignUpBack = false)
    (hch : f.chars = []) (hbs : f.backspace = false)
    (hshort : (cString s.signUpUsernameInput).length < 3 ∨
      (cString s.signUpPasswordInput).length < 5) :
    (step strtof s f).screen = Screen.signUp ∧
    (step strtof s f).users = s.users ∧
    (step strtof s f).uiMessage = UiMsg.tooShort := by
  rw [step_eq_signUp strtof s f hscr]
  have hf := stepMsgTimer_fields s f.dt
  simp only [stepSignUp, hch, hbs, hmp, hbtn, hnb, updateInputBox_queue_no_keys,
    cString_updateInputBox_no_keys, hf.2.2.2.2.2.2.1, hf.2.2.2.2.2.2.2.1,
    hf.2.2.2.2.2.2.2.2, Bool.false_eq_true, false_and, if_false, and_self, if_true]
  rw [if_pos hshort]
  simp [setMsg, hf.1, hscr, hf.2.2.2.1]

/-- Claim C8: while ItemDetails shows an item whose auction is closed,
no frame input can move the screen to PlaceBid. -/
theorem c8_closed_item_never_placebid (strtof : List Nat → ℚ) (s : AppState) (f : Frame)
    (hscr : s.screen = Screen.itemDetails)
    (hidx : 0 ≤ s.selectedItemIndex)
    (hclosed : (itemAt s.items s.selectedItemIndex).auctionClosed = true) :
    (step strtof s f).screen ≠ Screen.placeBid := by
  rw [step_eq_itemDetails strtof s f hscr]
  have hf := stepMsgTimer_fields s f.dt
  simp only [stepItemDetails, setMsg, hf.2.1, hf.2.2.1]
  split_ifs <;> simp_all [hf.1, hscr]

/-- Claim C1: on the PlaceBid screen, clicking BID! rejects the bid
(message shown, items untouched, still on PlaceBid) when the bidder
name field is empty, when the parsed amount is at most the item's
current bid, or when it exceeds 999999999; otherwise it writes the new
current bid and highest bidder into the selected item and returns to
ItemDetails with a success message. -/
theorem c1_place_bid (strtof : List Nat → ℚ) (s : AppState) (f : Frame)
    (hscr : s.screen = Screen.placeBid)
    (hbtn : f.overBidBtn = true) (hmp : f.mousePressed = true)
    (hnc : f.overCancelBtn = false)
    (hch : f.chars = []) (hbs : f.backspace = false) :
    (cString s.bidderNameInput = [] →
      (step strtof s f).items = s.items ∧
      (step strtof s f).screen = Screen.placeBid ∧
      (step strtof s f).uiMessage = UiMsg.needName) ∧
    (cString s.bidderNameInput ≠ [] →
      strtof (cString s.bidAmountInput) ≤
        (itemAt s.items s.selectedItemIndex).currentBid →
      (step strtof s f).items = s.items ∧
      (step strtof s f).screen = Screen.placeBid ∧
      (step strtof s f).uiMessage = UiMsg.bidTooLow (strtof (cString s.bidAmountInput))
        (itemAt s.items s.selectedItemIndex).currentBid) ∧
    (cString s.bidderNameInput ≠ [] →
      (itemAt s.items s.selectedItemIndex).currentBid <
        strtof (cString s.bidAmountInput) →
      999999999 < strtof (cString s.bidAmountInput) →
      (step strtof s f).items = s.items ∧
      (step strtof s f).screen = Screen.placeBid ∧
      (step strtof s f).uiMessage = UiMsg.bidTooLarge) ∧
    (cString s.bidderNameInput ≠ [] →
      (itemAt s.items s.selectedItemIndex).currentBid <
        strtof (cString s.bidAmountInput) →
      strtof (cString s.bidAmountInput) ≤ 999999999 →
      (step strtof s f).items = s.items.set s.selectedItemIndex.toNat
        { itemAt s.items s.selectedItemIndex with
          currentBid := strtof (cString s.bidAmountInput),
          highestBidder := cString s.bidderNameInput } ∧
      (step strtof s f).screen = Screen.itemDetails ∧
      (step strtof s f).uiMessage =
        UiMsg.bidPlaced (strtof (cString s.bidAmountInput))
          (cString s.bidderNameInput)) := by
  rw [step_eq_placeBid strtof s f hscr]
  have hf := stepMsgTimer_fields s f.dt
  simp only [stepPlaceBid, hch, hbs, hmp, hbtn, hnc, updateInputBox_queue_no_keys,
    cString_updateInputBox_no_keys, hf.2.1, hf.2.2.1, hf.2.2.2.2.1, hf.2.2.2.2.2.1,
    Bool.false_eq_true, false_and, if_false, and_self, if_true]
  refine ⟨?_, ?_, ?_, ?_⟩
  · intro hname
    rw [if_pos (by simp [hname])]
    simp [setMsg, hf.1, hscr, hf.2.1]
  · intro hname hle
    rw [if_neg (by simp [List.length_eq_zero, hname]), if_pos hle]
    simp [setMsg, hf.1, hscr, hf.2.1]
  · intro hname hgt hbig
    rw [if_neg (by simp [List.length_eq_zero, hname]), if_neg (not_le.mpr hgt),
      if_pos hbig]
    simp [setMsg, hf.1, hscr, hf.2.1]
  · intro hname hgt hsmall
    rw [if_neg (by simp [List.length_eq_zero, hname]), if_neg (not_le.mpr hgt),
      if_neg (not_lt.mpr hsmall)]
    simp [setMsg, hf.1, hscr, hf.2.1, hf.2.2.1]

/-- The startup state satisfies the invariant. -/
lemma inv_init (us : List User) : Inv (initState us) := by
  simp [Inv, initState, initItems]

/-- The message-timer update preserves the invariant. -/
lemma inv_stepMsgTimer (s : AppState) (dt : ℚ) (h : Inv s) :
    Inv (stepMsgTimer s dt) := by
  have hf := stepMsgTimer_fields s dt
  unfold Inv at h ⊢
  rw [hf.1, hf.2.1, hf.2.2.1]
  exact h

/-- The auth-menu update preserves the invariant. -/
lemma inv_stepAuthMenu (s : AppState) (f : Frame) (h : Inv s) :
    Inv (stepAuthMenu s f) := by
  obtain ⟨hlen, hsel⟩ := h
  simp only [stepAuthMenu]
  split_ifs <;>
    first
      | exact ⟨hlen, hsel⟩
      | exact ⟨hlen, fun hx => hx.elim (fun h2 => Screen.noConfusion h2)
          (fun h2 => Screen.noConfusion h2)⟩

/-- The sign-in update preserves the invariant. -/
lemma inv_stepSignIn (s : AppState) (f : Frame) (h : Inv s) :
    Inv (stepSignIn s f) := by
  obtain ⟨hlen, hsel⟩ := h
  simp only [stepSignIn]
  split_ifs <;>
    first
      | exact ⟨hlen, hsel⟩
      | exact ⟨hlen, fun hx => hx.elim (fun h2 => Screen.noConfusion h2)
          (fun h2 => Screen.noConfusion h2)⟩

/-- The sign-up update preserves the invariant. -/
lemma inv_stepSignUp (s : AppState) (f : Frame) (h : Inv s) :
    Inv (stepSignUp s f) := by
  obtain ⟨hlen, hsel⟩ := h
  simp only [stepSignUp]
  split_ifs <;>
    first
      | exact ⟨hlen, hsel⟩
      | exact ⟨hlen, fun hx => hx.elim (fun h2 => Screen.noConfusion h2)
          (fun h2 => Screen.noConfusion h2)⟩

/-- The item-list update preserves the invariant: a clicked row index
comes from the range of the item count. -/
lemma inv_stepItemList (s : AppState) (f : Frame) (h : Inv s) :
    Inv (stepItemList s f) := by
  obtain ⟨hlen, hsel⟩ := h
  rcases hfind : (List.range s.items.length).find? (fun i => f.itemRowHit i) with _ | i
  · simp only [stepItemList, hfind]
    split_ifs <;>
      first
        | exact ⟨hlen, hsel⟩
        | exact ⟨hlen, fun hx => hx.elim (fun h2 => Screen.noConfusion h2)
            (fun h2 => Screen.noConfusion h2)⟩
  · have hi : i < s.items.length := List.mem_range.mp (List.mem_of_find?_eq_some hfind)
    simp only [stepItemList, hfind]
    split_ifs <;>
      first
        | exact ⟨hlen, hsel⟩
        | exact ⟨hlen, fun hx => hx.elim (fun h2 => Screen.noConfusion h2)
            (fun h2 => Screen.noConfusion h2)⟩
        | (refine ⟨hlen, fun hx => ?_⟩
           show (0 : Int) ≤ (i : Int) ∧ (i : Int) < 3
           omega)

/-- The item-details update preserves the invariant. -/
lemma inv_stepItemDetails (s : AppState) (f : Frame) (h : Inv s)
    (hscr : s.screen = Screen.itemDetails) :
    Inv (stepItemDetails s f) := by
  obtain ⟨hlen, hsel⟩ := h
  simp only [stepItemDetails]
  split_ifs <;>
    first
      | exact ⟨hlen, hsel⟩
      | exact ⟨hlen, fun hx => hsel (Or.inl hscr)⟩
      | exact ⟨hlen, fun hx => hx.elim (fun h2 => Screen.noConfusion h2)
          (fun h2 => Screen.noConfusion h2)⟩
      | (rename_i hguard _
         exact (hguard.1 rfl).elim)

/-- The place-bid update preserves the invariant. -/
lemma inv_stepPlaceBid (strtof : List Nat → ℚ) (s : AppState) (f : Frame)
    (h : Inv s) (hscr : s.screen = Screen.placeBid) :
    Inv (stepPlaceBid strtof s f) := by
  obtain ⟨hlen, hsel⟩ := h
  simp only [stepPlaceBid]
  split_ifs <;>
    first
      | exact ⟨hlen, hsel⟩
      | exact ⟨hlen, fun hx => hsel (Or.inr hscr)⟩
      | exact ⟨hlen, fun hx => hx.elim (fun h2 => Screen.noConfusion h2)
          (fun h2 => Screen.noConfusion h2)⟩
      | (refine ⟨?_, fun hx => hsel (Or.inr hscr)⟩
         dsimp only [setMsg]
         rw [List.length_set]
         exact hlen)

/-- Every frame step preserves the invariant. -/
lemma inv_step (strtof : List Nat → ℚ) (s : AppState) (f : Frame) (h : Inv s) :
    Inv (step strtof s f) := by
  have h1 : Inv (stepMsgTimer s f.dt) := inv_stepMsgTimer s f.dt h
  unfold step
  split
  · exact inv_stepAuthMenu _ f h1
  · exact inv_stepSignIn _ f h1
  · exact inv_stepSignUp _ f h1
  · exact inv_stepItemList _ f h1
  · rename_i hscr
    exact inv_stepItemDetails _ f h1 hscr
  · rename_i hscr
    exact inv_stepPlaceBid strtof _ f h1 hscr

/-- Every reachable state satisfies the invariant. -/
lemma reachable_inv (strtof : List Nat → ℚ) (s : AppState)
    (h : Reachable strtof s) : Inv s := by
  induction h with
  | init us => exact inv_init us
  | next s f _ ih => exact inv_step strtof s f ih

/-- Claim C9: in every state reachable from startup whose screen is
PlaceBid, selectedItemIndex is a valid index into the items array, so
the unguarded items[selectedItemIndex] accesses of the PlaceBid update
and draw code are in bounds. -/
theorem c9_placebid_index_in_bounds (strtof : List Nat → ℚ) (s : AppState)
    (h : Reachable strtof s) (hscr : s.screen = Screen.placeBid) :
    0 ≤ s.selectedItemIndex ∧ s.selectedItemIndex < s.items.length := by
  have hinv := reachable_inv strtof s h
  have hsel := hinv.2 (Or.inr hscr)
  rw [hinv.1]
  exact_mod_cast hsel

/-! Monotonicity of current bids. -/
/-- The auth-menu update never touches the items. -/
lemma stepAuthMenu_items (s : AppState) (f : Frame) :
    (stepAuthMenu s f).items = s.items := by
  simp only [stepAuthMenu]
  split_ifs <;> rfl

/-- The sign-in update never touches the items. -/
lemma stepSignIn_items (s : AppState) (f : Frame) :
    (stepSignIn s f).items = s.items := by
  simp only [stepSignIn]
  split_ifs <;> rfl

/-- The sign-up update never touches the items. -/
lemma stepSignUp_items (s : AppState) (f : Frame) :
    (stepSignUp s f).items = s.items := by
  simp only [stepSignUp]
  split_ifs <;> rfl

/-- The item-list update never touches the items. -/
lemma stepItemList_items (s : AppState) (f : Frame) :
    (stepItemList s f).items = s.items := by
  rcases hfind : (List.range s.items.length).find? (fun i => f.itemRowHit i) with _ | i <;>
    (simp only [stepItemList, hfind]; split_ifs <;> rfl)

/-- The item-details update never touches the items. -/
lemma stepItemDetails_items (s : AppState) (f : Frame) :
    (stepItemDetails s f).items = s.items := by
  simp only [stepItemDetails]
  split_ifs <;> rfl

/-- getD after a set: the new element where the write landed in range,
the old one everywhere else. -/
lemma getD_set (l : List AuctionItem) (k j : Nat) (a : AuctionItem) :
    (l.set k a).getD j default =
      if k = j ∧ k < l.length then a else l.getD j default := by
  rw [List.getD_eq_getElem?_getD, List.getD_eq_getElem?_getD, List.getElem?_set]
  by_cases hkj : k = j
  · subst hkj
    by_cases hkl : k < l.length
    · rw [if_pos rfl, if_pos hkl, if_pos ⟨rfl, hkl⟩]
      rfl
    · rw [if_pos rfl, if_neg hkl, if_neg (fun hx => hkl hx.2),
        List.getElem?_eq_none (by omega)]
  · rw [if_neg hkj, if_neg (fun hx => hkj hx.1)]

/-- The place-bid update can only raise the current bid of any item: the
only write is guarded by the bid being strictly higher. -/
lemma stepPlaceBid_bidAt (strtof : List Nat → ℚ) (s : AppState) (f : Frame) (j : Nat) :
    bidAt s j ≤ bidAt (stepPlaceBid strtof s f) j := by
  simp only [stepPlaceBid]
  split_ifs <;>
    first
      | exact le_rfl
      | (
        have hlt : (itemAt s.items s.selectedItemIndex).currentBid <
            strtof (cString ((UpdateInputBox s.bidAmountInput f.overBidAmountBox
              ⟨f.mousePressed, f.chars, f.backspace, f.enter⟩).1)) :=
          not_le.mp (by assumption)
        simp only [bidAt, setMsg]
        rw [getD_set]
        split_ifs with hk
        · rw [← hk.1]
          exact le_of_lt hlt
        · exact le_rfl)

/-- One frame step can only raise the current bid of any item. -/
lemma step_bidAt_mono (strtof : List Nat → ℚ) (s : AppState) (f : Frame) (j : Nat) :
    bidAt s j ≤ bidAt (step strtof s f) j := by
  have ht : bidAt (stepMsgTimer s f.dt) j = bidAt s j := by
    simp only [bidAt, (stepMsgTimer_fields s f.dt).2.1]
  unfold step
  split
  · exact le_of_eq (by simp only [bidAt, stepAuthMenu_items,
      (stepMsgTimer_fields s f.dt).2.1])
  · exact le_of_eq (by simp only [bidAt, stepSignIn_items,
      (stepMsgTimer_fields s f.dt).2.1])
  · exact le_of_eq (by simp only [bidAt, stepSignUp_items,
      (stepMsgTimer_fields s f.dt).2.1])
  · exact le_of_eq (by simp only [bidAt, stepItemList_items,
      (stepMsgTimer_fields s f.dt).2.1])
  · exact le_of_eq (by simp only [bidAt, stepItemDetails_items,
      (stepMsgTimer_fields s f.dt).2.1])
  · exact ht ▸ stepPlaceBid_bidAt strtof (stepMsgTimer s f.dt) f j

/-- Claim C2: along every run of the application from startup, the
current bid of every item is monotonically non-decreasing frame by
frame. -/
theorem c2_bid_monotone (strtof : List Nat → ℚ) (us : List User)
    (fs : Nat → Frame) (j n m : Nat) (h : n ≤ m) :
    bidAt (runApp strtof us fs n) j ≤ bidAt (runApp strtof us fs m) j := by
  induction m with
  | zero =>
    have hn : n = 0 := Nat.le_zero.mp h
    subst hn
    exact le_rfl
  | succ k ih =>
    rcases Nat.lt_or_ge n (k + 1) with hlt | hge
    · exact le_trans (ih (Nat.lt_succ_iff.mp hlt))
        (step_bidAt_mono strtof (runApp strtof us fs k) (fs k) j)
    · have hn : n = k + 1 := by omega
      subst hn
      exact le_rfl

/-- Witness for C2 on a concrete run. -/
theorem c2_bid_monotone_witness :
    (0 : Nat) ≤ 2 ∧
    bidAt (runApp (fun _ => 0) [] (fun _ => frameW) 0) 0 ≤
      bidAt (runApp (fun _ => 0) [] (fun _ => frameW) 2) 0 :=
  ⟨by decide, c2_bid_monotone (fun _ => 0) [] (fun _ => frameW) 0 0 2 (by decide)⟩

/-- Witness for C1: the accepting branch on a concrete state. -/
theorem c1_place_bid_witness :
    (step (fun _ => 1600) c1S c1F).screen = Screen.itemDetails :=
  (((c1_place_bid (fun _ => 1600) c1S c1F rfl rfl rfl rfl rfl rfl).2.2.2
    (by decide) (by decide) (by decide)).2.1)

/-- Witness for C7 at a concrete state (username empty, so shorter than
3 characters). -/
theorem c7_signup_validation_witness :
    (step strtof0 c7S c7F).screen = Screen.signUp :=
  (c7_signup_validation strtof0 c7S c7F rfl rfl rfl rfl rfl rfl
    (Or.inl (by decide))).1

/-- Witness for C8 at a concrete state and frame. -/
theorem c8_closed_item_never_placebid_witness :
    (step strtof0 c8S frameW).screen ≠ Screen.placeBid :=
  c8_closed_item_never_placebid strtof0 c8S frameW rfl (by decide) (by decide)

/-- Witness for C9 on the concrete reachable place-bid state. -/
theorem c9_placebid_index_in_bounds_witness :
    0 ≤ c9S.selectedItemIndex ∧ c9S.selectedItemIndex < c9S.items.length := by
  refine c9_placebid_index_in_bounds strtof0 c9S ?_ (by decide)
  exact Reachable.next _ c9F6 (Reachable.next _ c9F5 (Reachable.next _ c9F4
    (Reachable.next _ c9F3 (Reachable.next _ c9F2 (Reachable.next _ c9F1
      (Reachable.init usersW))))))

end Auction
